import Mathlib

/-!
Verification of the tic-tac-toe match engine in
`src/tic_tac_toe_backend/src/api/routes.py`.

The board is the 9-character state string, modelled as a list of cells
(`-` = `Cell.E`, `X` = `Cell.X`, `O` = `Cell.O`).  The `winner` column of
a `Game` row is `Optional["X","O","draw"]`, modelled as `Option Winner`.
The move handler `make_move` mutates the game row only after all of its
legality checks have passed; we model it as a pure function returning the
resulting game row together with an optional rejection reason (`none`
means the move was accepted).  A raised `HTTPException` maps to returning
the untouched input row with the corresponding `MoveError`.
-/

namespace TicTacToe

/-- A cell of the 9-character board string: `-`, `X` or `O`. -/
inductive Cell where
  | E : Cell
  | X : Cell
  | O : Cell
deriving DecidableEq, Repr

/-- Value stored in the `winner` column: `"X"`, `"O"` or `"draw"`. -/
inductive Winner where
  | X : Winner
  | O : Winner
  | draw : Winner
deriving DecidableEq, Repr

/-- The board: the game's `state` string, one `Cell` per character. -/
abbrev Board := List Cell

/-- Indexing `state[i]` (total via a default; all checked accesses are in
range on length-9 boards). -/
def cellAt (b : Board) (i : Nat) : Cell := b.getD i Cell.E

/-- A `Move` row: `player_id` and `move_index` (the `game_id` column is
fixed per game and omitted). -/
structure Move where
  player_id : Nat
  move_index : Nat
deriving DecidableEq, Repr

/-- A `Game` row: the two player ids, the board string, the winner
column, and the game's `Move` rows in insertion (id) order. -/
structure Game where
  player_x_id : Nat
  player_o_id : Nat
  state : Board
  winner : Option Winner
  moves : List Move
deriving DecidableEq, Repr

/-- A `MoveRequest` body: `player_id` and `move_index`.  The pydantic
schema constrains `move_index` by `ge=0, le=8`; we model the field as an
unconstrained integer so that out-of-schema values can be discussed. -/
structure MoveRequest where
  player_id : Nat
  move_index : Int
deriving DecidableEq, Repr

/-- `get_current_turn`: X always starts; if an even number of moves has
been played (9 minus the count of `-` in the state string), it is X's
turn, else O's. -/
def get_current_turn (state : Board) : Cell :=
  if (9 - state.count Cell.E) % 2 = 0 then Cell.X else Cell.O

/-- The 8 winning lines checked by `check_winner`, in source order:
rows, then columns, then diagonals. -/
def winLines : List (Nat × Nat × Nat) :=
  [(0, 1, 2), (3, 4, 5), (6, 7, 8),
   (0, 3, 6), (1, 4, 7), (2, 5, 8),
   (0, 4, 8), (2, 4, 6)]

/-- Conversion of a winning mark `state[a]` to the returned literal. -/
def cellWinner : Cell → Option Winner
  | Cell.X => some Winner.X
  | Cell.O => some Winner.O
  | Cell.E => none

/-- The loop body of `check_winner`: return the mark of the first line
whose three cells are identical and in `"XO"`. -/
def scanLines (state : Board) : List (Nat × Nat × Nat) → Option Winner
  | [] => none
  | (a, b, c) :: rest =>
    if cellAt state a = cellAt state b ∧ cellAt state b = cellAt state c ∧
        (cellAt state a = Cell.X ∨ cellAt state a = Cell.O) then
      cellWinner (cellAt state a)
    else
      scanLines state rest

/-- `check_winner`: scan the 8 lines; if none wins, return `draw` when no
`-` remains in the state string, else `None`. -/
def check_winner (state : Board) : Option Winner :=
  match scanLines state winLines with
  | some w => some w
  | none => if state.contains Cell.E then none else some Winner.draw

/-- The rejection reasons `make_move` can raise (its `HTTPException`
branches, besides the game-lookup 404 which concerns the store). -/
inductive MoveError where
  | MatchFinished : MoveError
  | NotAParticipant : MoveError
  | NotYourTurn : MoveError
  | PositionOutOfRange : MoveError
  | CellOccupied : MoveError
deriving DecidableEq, Repr

/-- `state[:i] + mark + state[i+1:]`: write `mark` at position `i`. -/
def setCell (state : Board) (i : Nat) (mark : Cell) : Board :=
  state.set i mark

/-- `player_type = "X" if request.player_id == game.player_x_id else "O"
if request.player_id == game.player_o_id else None`. -/
def player_type_of (game : Game) (request : MoveRequest) : Option Cell :=
  if request.player_id = game.player_x_id then some Cell.X
  else if request.player_id = game.player_o_id then some Cell.O
  else none

/-- The mutation phase of `make_move`, reached only after all checks
pass: write the cell, append the `Move` row, and set the `winner` column
when `check_winner` reports one. -/
def apply_update (game : Game) (request : MoveRequest) (pt : Cell) : Game :=
  let new_state := setCell game.state request.move_index.toNat pt
  let game1 : Game :=
    { game with
        state := new_state,
        moves := game.moves ++ [⟨request.player_id, request.move_index.toNat⟩] }
  match check_winner new_state with
  | some w => { game1 with winner := some w }
  | none => game1

/-- `make_move` on a found game row: runs the legality checks in source
order (finished game, participant, turn, bounds, occupancy), and only
then writes the cell, appends the `Move` row and stores any winner.
Returns the resulting row and the rejection reason, if any; every raise
happens before any mutation, so rejections return the input row. -/
def make_move (game : Game) (request : MoveRequest) : Game × Option MoveError :=
  if game.winner.isSome then
    (game, some MoveError.MatchFinished)
  else
    match player_type_of game request with
    | none => (game, some MoveError.NotAParticipant)
    | some pt =>
      if pt ≠ get_current_turn game.state then
        (game, some MoveError.NotYourTurn)
      else if ¬ (0 ≤ request.move_index ∧ request.move_index ≤ 8) then
        (game, some MoveError.PositionOutOfRange)
      else if cellAt game.state request.move_index.toNat ≠ Cell.E then
        (game, some MoveError.CellOccupied)
      else
        (apply_update game request pt, none)

/-- The `GameState` response body built by `to_gamestate` (timestamps
omitted): player ids, state string, winner, and the move indices in
move-id order. -/
structure GameStateResp where
  player_x : Nat
  player_o : Nat
  state : Board
  winner : Option Winner
  moves : List Nat
deriving DecidableEq, Repr

/-- `_to_gamestate`: project a game row to the response body. -/
def to_gamestate (game : Game) : GameStateResp :=
  ⟨game.player_x_id, game.player_o_id, game.state, game.winner,
   game.moves.map Move.move_index⟩

/-- `get_game_state` on a found game row: the read path simply projects
the stored row to the response. -/
def get_game_state (game : Game) : GameStateResp :=
  to_gamestate game

/-- The row inserted by `create_game`: empty board, no winner, no moves. -/
def freshGame (player_x_id player_o_id : Nat) : Game :=
  ⟨player_x_id, player_o_id, List.replicate 9 Cell.E, none, []⟩

/-- Game rows reachable from a fresh game by accepted `make_move` calls. -/
inductive Reachable : Game → Prop where
  | init (px po : Nat) : Reachable (freshGame px po)
  | step (g : Game) (r : MoveRequest) :
      Reachable g → (make_move g r).2 = none → Reachable (make_move g r).1

/-- Play a sequence of move requests, insisting that every one of them
is accepted; returns `none` as soon as one is rejected. -/
def playAll (g : Game) : List MoveRequest → Option Game
  | [] => some g
  | r :: rs =>
    match make_move g r with
    | (g1, none) => playAll g1 rs
    | (_, some _) => none

/-- A line whose three cells hold identical non-Empty marks. -/
def lineMono (state : Board) (l : Nat × Nat × Nat) : Prop :=
  cellAt state l.1 = cellAt state l.2.1 ∧
    cellAt state l.2.1 = cellAt state l.2.2 ∧ cellAt state l.1 ≠ Cell.E

instance (state : Board) (l : Nat × Nat × Nat) : Decidable (lineMono state l) := by
  unfold lineMono; infer_instance

/-- The win-detection algorithm exactly as the spec words it: find the
first triple (rows, then columns, then diagonals) holding three identical
non-Empty marks and return its mark; otherwise `Draw` when the board has
no Empty cell, else `InProgress` (`none`). -/
def winDetectorSpec (state : Board) : Option Winner :=
  match winLines.find? (fun l => decide (lineMono state l)) with
  | some l => cellWinner (cellAt state l.1)
  | none => if state.contains Cell.E then none else some Winner.draw

/-- The legality checks of `make_move` written as one first-failure-wins
chain, in the order the code runs them: finished match, participant,
turn, bounds, occupancy. -/
def make_move_check_order (game : Game) (request : MoveRequest) :
    Game × Option MoveError :=
  if game.winner.isSome then (game, some MoveError.MatchFinished)
  else if request.player_id ≠ game.player_x_id ∧ request.player_id ≠ game.player_o_id then
    (game, some MoveError.NotAParticipant)
  else if (if request.player_id = game.player_x_id then Cell.X else Cell.O) ≠
      get_current_turn game.state then
    (game, some MoveError.NotYourTurn)
  else if ¬ (0 ≤ request.move_index ∧ request.move_index ≤ 8) then
    (game, some MoveError.PositionOutOfRange)
  else if cellAt game.state request.move_index.toNat ≠ Cell.E then
    (game, some MoveError.CellOccupied)
  else
    (apply_update game request
      (if request.player_id = game.player_x_id then Cell.X else Cell.O), none)

/-! ### Lemmas about the win scan -/

theorem cell_ne_E_iff (c : Cell) : c ≠ Cell.E ↔ (c = Cell.X ∨ c = Cell.O) := by
  cases c <;> simp

theorem scanLines_eq_find (state : Board) (ls : List (Nat × Nat × Nat)) :
    scanLines state ls =
      match ls.find? (fun l => decide (lineMono state l)) with
      | some l => cellWinner (cellAt state l.1)
      | none => none := by
  induction ls with
  | nil => rfl
  | cons hd tl ih =>
    obtain ⟨a, b, c⟩ := hd
    have hiff : (cellAt state a = cellAt state b ∧ cellAt state b = cellAt state c ∧
        (cellAt state a = Cell.X ∨ cellAt state a = Cell.O)) ↔ lineMono state (a, b, c) := by
      unfold lineMono
      cases cellAt state a <;> simp
    by_cases h : lineMono state (a, b, c)
    · rw [List.find?_cons_of_pos _ (by simpa using h)]
      simp only [scanLines]
      rw [if_pos (hiff.mpr h)]
    · rw [List.find?_cons_of_neg _ (by simpa using h)]
      simp only [scanLines]
      rw [if_neg (fun hc => h (hiff.mp hc))]
      exact ih

/-- Claim C5: `check_winner` implements exactly the spec's algorithm:
scan the 8 triples in the order rows, columns, diagonals; return the mark
of the first monochrome non-Empty triple; otherwise `draw` when no Empty
cell remains, else `none` (in progress). -/
theorem check_winner_eq_winDetectorSpec (state : Board) :
    check_winner state = winDetectorSpec state := by
  unfold check_winner winDetectorSpec
  rw [scanLines_eq_find]
  cases hf : winLines.find? (fun l => decide (lineMono state l)) with
  | none => rfl
  | some l =>
    have hm : lineMono state l := by
      have := List.find?_some hf
      simpa using this
    obtain ⟨h1, h2, h3⟩ := hm
    cases hc : cellAt state l.1 with
    | E => exact absurd hc h3
    | X => simp [hc, cellWinner]
    | O => simp [hc, cellWinner]

/-- Claim C7: `get_current_turn` is a function of the move count alone —
it returns X exactly when 9 minus the number of Empty cells is even, and
O exactly when that count is odd. -/
theorem get_current_turn_parity (state : Board) :
    (get_current_turn state = Cell.X ↔ (9 - state.count Cell.E) % 2 = 0) ∧
    (get_current_turn state = Cell.O ↔ (9 - state.count Cell.E) % 2 = 1) := by
  unfold get_current_turn
  by_cases h : (9 - state.count Cell.E) % 2 = 0
  · rw [if_pos h]
    exact ⟨⟨fun _ => h, fun _ => rfl⟩,
      ⟨fun hxo => absurd hxo (by decide), fun h1 => absurd h (by omega)⟩⟩
  · rw [if_neg h]
    exact ⟨⟨fun hox => absurd hox (by decide), fun h0 => absurd h0 h⟩,
      ⟨fun _ => by omega, fun _ => rfl⟩⟩

/-- Claim C9: from a fresh game, the accepted sequence X@0, O@3, X@1,
O@4, X@2 ends with winner X and board `XXXOO----`. -/
theorem row_win_scenario :
    playAll (freshGame 1 2) [⟨1, 0⟩, ⟨2, 3⟩, ⟨1, 1⟩, ⟨2, 4⟩, ⟨1, 2⟩] =
      some ⟨1, 2,
        [Cell.X, Cell.X, Cell.X, Cell.O, Cell.O, Cell.E, Cell.E, Cell.E, Cell.E],
        some Winner.X, [⟨1, 0⟩, ⟨2, 3⟩, ⟨1, 1⟩, ⟨2, 4⟩, ⟨1, 2⟩]⟩ := by
  decide

/-! ### Case analysis of `make_move` -/

/-- Every `make_move` call either rejects, returning the untouched row
with an error, or applies the update with the caller's mark. -/
theorem make_move_cases (g : Game) (r : MoveRequest) :
    (∃ e, make_move g r = (g, some e)) ∨
    (∃ pt, player_type_of g r = some pt ∧
      0 ≤ r.move_index ∧ r.move_index ≤ 8 ∧
      cellAt g.state r.move_index.toNat = Cell.E ∧
      make_move g r = (apply_update g r pt, none)) := by
  unfold make_move
  by_cases hw : g.winner.isSome
  · exact Or.inl ⟨MoveError.MatchFinished, by simp [hw]⟩
  · cases hpt : player_type_of g r with
    | none => exact Or.inl ⟨MoveError.NotAParticipant, by simp [hw, hpt]⟩
    | some pt =>
      by_cases ht : pt ≠ get_current_turn g.state
      · exact Or.inl ⟨MoveError.NotYourTurn, by simp [hw, hpt, ht]⟩
      · by_cases hb : ¬ (0 ≤ r.move_index ∧ r.move_index ≤ 8)
        · exact Or.inl ⟨MoveError.PositionOutOfRange, by simp [hw, hpt, ht, hb]⟩
        · by_cases hc : cellAt g.state r.move_index.toNat ≠ Cell.E
          · exact Or.inl ⟨MoveError.CellOccupied, by simp [hw, hpt, ht, hb, hc]⟩
          · exact Or.inr ⟨pt, by simp [hpt], (not_not.mp hb).1, (not_not.mp hb).2,
              not_not.mp hc, by simp [hw, hpt, ht, hb, hc]⟩

/-- Claim C1 (amended): `make_move` runs its checks first-failure-wins in
the order MatchFinished, NotAParticipant, NotYourTurn,
PositionOutOfRange, CellOccupied — the turn check comes before the
bounds check. -/
theorem make_move_eq_check_order (g : Game) (r : MoveRequest) :
    make_move g r = make_move_check_order g r := by
  unfold make_move make_move_check_order player_type_of
  by_cases hw : g.winner.isSome
  · simp [hw]
  · by_cases hx : r.player_id = g.player_x_id
    · simp [hw, hx]
    · by_cases ho : r.player_id = g.player_o_id
      · have hne : ¬ g.player_o_id = g.player_x_id := fun h => hx (ho.trans h)
        simp [hw, hx, ho, hne]
      · simp [hw, hx, ho]

/-- Claim C1 (counterexample): a fresh game, a request by the O player
(a participant, not on turn) at position 9 (outside [0,8]) is rejected
with NotYourTurn, not PositionOutOfRange as the spec's check order
requires. -/
theorem make_move_order_counterexample :
    ¬ ((0 : Int) ≤ 9 ∧ (9 : Int) ≤ 8) ∧
    (2 : Nat) = (freshGame 1 2).player_o_id ∧
    Cell.O ≠ get_current_turn (freshGame 1 2).state ∧
    (make_move (freshGame 1 2) ⟨2, 9⟩).2 = some MoveError.NotYourTurn ∧
    some MoveError.NotYourTurn ≠ some MoveError.PositionOutOfRange := by
  decide

/-- Claim C2: rejection is atomic — whenever `make_move` returns an
error, the resulting row (board string, move rows, winner column) equals
the input row. -/
theorem make_move_rejected_unchanged (g : Game) (r : MoveRequest)
    (e : MoveError) (h : (make_move g r).2 = some e) :
    (make_move g r).1 = g := by
  rcases make_move_cases g r with ⟨e2, he⟩ | ⟨pt, hpt, h0, h8, hcell, he⟩
  · rw [he]
  · rw [he] at h
    simp at h

/-- Witness for C2: a non-participant request on a fresh game is rejected
and leaves the row unchanged. -/
theorem make_move_rejected_unchanged_witness :
    (make_move (freshGame 1 2) ⟨3, 0⟩).2 = some MoveError.NotAParticipant ∧
    (make_move (freshGame 1 2) ⟨3, 0⟩).1 = freshGame 1 2 :=
  ⟨by decide,
   make_move_rejected_unchanged (freshGame 1 2) ⟨3, 0⟩
     MoveError.NotAParticipant (by decide)⟩

/-- Claim C3: a set winner column is absorbing — every further
`make_move` call is rejected with MatchFinished and returns the row
unchanged, and any sequence of further calls leaves the row fixed. -/
theorem terminal_absorbing (g : Game) (hg : g.winner ≠ none) :
    (∀ r, make_move g r = (g, some MoveError.MatchFinished)) ∧
    (∀ rs : List MoveRequest,
      rs.foldl (fun a r => (make_move a r).1) g = g) := by
  have hw : g.winner.isSome = true := by
    rcases hgw : g.winner with _ | w
    · exact absurd hgw hg
    · simp
  have h1 : ∀ r, make_move g r = (g, some MoveError.MatchFinished) := by
    intro r
    unfold make_move
    simp [hw]
  refine ⟨h1, ?_⟩
  intro rs
  induction rs with
  | nil => rfl
  | cons r rs ih =>
    rw [List.foldl_cons, h1 r]
    exact ih

/-- Witness for C3: on a game whose winner column holds X, a move by the
X player at position 0 is rejected with MatchFinished, state unchanged. -/
theorem terminal_absorbing_witness :
    ((⟨1, 2, List.replicate 9 Cell.E, some Winner.X, []⟩ : Game).winner ≠ none) ∧
    make_move ⟨1, 2, List.replicate 9 Cell.E, some Winner.X, []⟩ ⟨1, 0⟩ =
      (⟨1, 2, List.replicate 9 Cell.E, some Winner.X, []⟩,
        some MoveError.MatchFinished) :=
  ⟨by decide,
   (terminal_absorbing ⟨1, 2, List.replicate 9 Cell.E, some Winner.X, []⟩
     (by decide)).1 ⟨1, 0⟩⟩

/-- Claim C10: under the request schema's bound `0 ≤ move_index ≤ 8`, the
PositionOutOfRange branch of `make_move` is unreachable. -/
theorem inrange_no_position_out_of_range (g : Game) (r : MoveRequest)
    (h0 : 0 ≤ r.move_index) (h8 : r.move_index ≤ 8) :
    (make_move g r).2 ≠ some MoveError.PositionOutOfRange := by
  unfold make_move
  by_cases hw : g.winner.isSome
  · simp [hw]
  · cases hpt : player_type_of g r with
    | none => simp [hw, hpt]
    | some pt =>
      by_cases ht : pt ≠ get_current_turn g.state
      · simp [hw, hpt, ht]
      · by_cases hc : cellAt g.state r.move_index.toNat ≠ Cell.E
        · simp [hw, hpt, ht, h0, h8, hc]
        · simp [hw, hpt, ht, h0, h8, hc]

/-- Witness for C10: a schema-conformant request at position 0 on a
fresh game is not rejected with PositionOutOfRange. -/
theorem inrange_no_position_out_of_range_witness :
    ((0 : Int) ≤ 0 ∧ (0 : Int) ≤ 8) ∧
    (make_move (freshGame 1 2) ⟨1, 0⟩).2 ≠ some MoveError.PositionOutOfRange :=
  ⟨by decide,
   inrange_no_position_out_of_range (freshGame 1 2) ⟨1, 0⟩
     (by decide) (by decide)⟩

/-! ### The occupancy/log invariant on reachable games -/

theorem player_type_of_ne_E (g : Game) (r : MoveRequest) (pt : Cell)
    (h : player_type_of g r = some pt) : pt ≠ Cell.E := by
  unfold player_type_of at h
  by_cases hx : r.player_id = g.player_x_id
  · rw [if_pos hx] at h
    injection h with h1
    subst h1
    decide
  · rw [if_neg hx] at h
    by_cases ho : r.player_id = g.player_o_id
    · rw [if_pos ho] at h
      injection h with h1
      subst h1
      decide
    · rw [if_neg ho] at h
      exact absurd h (by simp)

theorem apply_update_fields (g : Game) (r : MoveRequest) (pt : Cell) :
    (apply_update g r pt).state = setCell g.state r.move_index.toNat pt ∧
    (apply_update g r pt).moves =
      g.moves ++ [⟨r.player_id, r.move_index.toNat⟩] := by
  simp only [apply_update]
  cases hcw : check_winner (setCell g.state r.move_index.toNat pt) <;> simp

theorem count_set_E (l : List Cell) (i : Nat) (a : Cell) (hi : i < l.length)
    (he : l.getD i Cell.E = Cell.E) (ha : a ≠ Cell.E) :
    (l.set i a).count Cell.E + 1 = l.count Cell.E := by
  induction l generalizing i with
  | nil => simp at hi
  | cons hd tl ih =>
    cases i with
    | zero =>
      have hhd : hd = Cell.E := by simpa using he
      subst hhd
      simp [List.set, List.count_cons, Ne.symm ha]
    | succ n =>
      have hn : n < tl.length := by simpa using hi
      have he2 : tl.getD n Cell.E = Cell.E := by simpa using he
      have hrec := ih n hn he2
      simp only [List.set, List.count_cons]
      cases hb2 : (Cell.E == hd) <;> simp <;> omega

theorem reachable_invariant (g : Game) (h : Reachable g) :
    g.state.length = 9 ∧ g.moves.length + g.state.count Cell.E = 9 := by
  induction h with
  | init px po => exact ⟨by simp [freshGame], by simp [freshGame]⟩
  | step g r hg hacc ih =>
    rcases make_move_cases g r with ⟨e, he⟩ | ⟨pt, hpt, h0, h8, hcell, he⟩
    · rw [he] at hacc
      simp at hacc
    · rw [he]
      obtain ⟨h9, hsum⟩ := ih
      obtain ⟨hst, hmv⟩ := apply_update_fields g r pt
      have hptE := player_type_of_ne_E g r pt hpt
      have hidx : r.move_index.toNat < g.state.length := by
        rw [h9]; omega
      have hcnt := count_set_E g.state r.move_index.toNat pt hidx hcell hptE
      constructor
      · rw [hst]
        simp [setCell, h9]
      · rw [hst, hmv]
        simp only [setCell, List.length_append, List.length_cons, List.length_nil]
        omega

/-- Claim C4: from a fresh game, every reachable row satisfies
`moves.length = 9 - count(state, Empty)` — each accepted move appends one
`Move` row and fills one previously empty cell. -/
theorem reachable_moves_length (g : Game) (h : Reachable g) :
    g.moves.length = 9 - g.state.count Cell.E := by
  have := reachable_invariant g h
  omega

/-- Witness for C4: the invariant after one accepted move from fresh. -/
theorem reachable_moves_length_witness :
    (make_move (freshGame 1 2) ⟨1, 0⟩).1.moves.length =
      9 - (make_move (freshGame 1 2) ⟨1, 0⟩).1.state.count Cell.E :=
  reachable_moves_length (make_move (freshGame 1 2) ⟨1, 0⟩).1
    (Reachable.step (freshGame 1 2) ⟨1, 0⟩ (Reachable.init 1 2) (by decide))

/-! ### Win detection on boards with a completed triple -/

/-- Claim C6 (amended): a board whose triple is entirely one mark is
always classified as a win, and specifically as that mark's win when
every completed triple on the board carries that mark; with arbitrary
other cells, an earlier monochrome triple of the other mark wins the
scan instead. -/
theorem win_triple_detected (state : Board) (l : Nat × Nat × Nat)
    (hl : l ∈ winLines) (m : Cell) (hm : m ≠ Cell.E)
    (h1 : cellAt state l.1 = m) (h2 : cellAt state l.2.1 = m)
    (h3 : cellAt state l.2.2 = m) :
    (∃ w, check_winner state = some w ∧ w ≠ Winner.draw) ∧
    ((∀ l2 ∈ winLines, lineMono state l2 → cellAt state l2.1 = m) →
      check_winner state = cellWinner m) := by
  have hmono : lineMono state l :=
    ⟨h1.trans h2.symm, h2.trans h3.symm, by rw [h1]; exact hm⟩
  have hsome : (winLines.find? (fun l2 => decide (lineMono state l2))).isSome := by
    rw [List.find?_isSome]
    exact ⟨l, hl, by simpa using hmono⟩
  obtain ⟨l0, hl0⟩ := Option.isSome_iff_exists.mp hsome
  have hm0 : lineMono state l0 := by simpa using List.find?_some hl0
  have hchk : check_winner state = cellWinner (cellAt state l0.1) := by
    unfold check_winner
    rw [scanLines_eq_find, hl0]
    rcases (cell_ne_E_iff _).mp hm0.2.2 with hx | hx <;> simp [hx, cellWinner]
  constructor
  · rcases (cell_ne_E_iff _).mp hm0.2.2 with hx | hx
    · exact ⟨Winner.X, by rw [hchk, hx]; rfl, by decide⟩
    · exact ⟨Winner.O, by rw [hchk, hx]; rfl, by decide⟩
  · intro hall
    have hl0mem : l0 ∈ winLines := List.mem_of_find?_eq_some hl0
    rw [hchk, hall l0 hl0mem hm0]

/-- Board with the first row completed by X and the rest empty. -/
def winWitnessBoard : Board :=
  [Cell.X, Cell.X, Cell.X, Cell.E, Cell.E, Cell.E, Cell.E, Cell.E, Cell.E]

/-- Witness for C6: row (0,1,2) completed by X on an otherwise empty
board is classified as a win, and as X's win. -/
theorem win_triple_detected_witness :
    (∃ w, check_winner winWitnessBoard = some w ∧ w ≠ Winner.draw) ∧
    check_winner winWitnessBoard = cellWinner Cell.X :=
  ⟨(win_triple_detected winWitnessBoard (0, 1, 2) (by decide) Cell.X
      (by decide) (by decide) (by decide) (by decide)).1,
   (win_triple_detected winWitnessBoard (0, 1, 2) (by decide) Cell.X
      (by decide) (by decide) (by decide) (by decide)).2 (by decide)⟩

/-- Board where row (0,1,2) is all O and row (3,4,5) is all X. -/
def mixedBoard : Board :=
  [Cell.O, Cell.O, Cell.O, Cell.X, Cell.X, Cell.X, Cell.E, Cell.E, Cell.E]

/-- Claim C6 (counterexample): the triple (3,4,5) is entirely X, yet the
scan reports O, because the all-O row (0,1,2) comes first in the check
order — so "rest arbitrary yields Won(m)" fails. -/
theorem win_triple_counterexample :
    (3, 4, 5) ∈ winLines ∧
    cellAt mixedBoard 3 = Cell.X ∧ cellAt mixedBoard 4 = Cell.X ∧
    cellAt mixedBoard 5 = Cell.X ∧
    check_winner mixedBoard = some Winner.O ∧
    check_winner mixedBoard ≠ some Winner.X := by
  decide

/-! ### The read path performs no invariant validation -/

/-- A stored row violating the occupancy/log invariant: one occupied
cell but an empty move log. -/
def corruptGame : Game :=
  ⟨1, 2, [Cell.X, Cell.E, Cell.E, Cell.E, Cell.E, Cell.E, Cell.E, Cell.E, Cell.E],
    none, []⟩

/-- Claim C8 (counterexample): a stored row violating the occupancy
invariant is served by the read path as-is; no CorruptSession failure
exists anywhere on that path. -/
theorem rehydrate_no_validation_counterexample :
    corruptGame.moves.length ≠ 9 - corruptGame.state.count Cell.E ∧
    get_game_state corruptGame = ⟨1, 2, corruptGame.state, none, []⟩ := by
  decide

/-- Claim C8 (amended): the read path validates nothing — even a row
violating the occupancy/log invariant is returned verbatim (board, move
log, winner), with no failure mode. -/
theorem rehydrate_returns_stored (g : Game)
    (_hbad : g.moves.length ≠ 9 - g.state.count Cell.E) :
    get_game_state g =
      ⟨g.player_x_id, g.player_o_id, g.state, g.winner,
        g.moves.map Move.move_index⟩ := rfl

/-- Witness for C8: the corrupt row is returned verbatim. -/
theorem rehydrate_returns_stored_witness :
    corruptGame.moves.length ≠ 9 - corruptGame.state.count Cell.E ∧
    get_game_state corruptGame =
      ⟨corruptGame.player_x_id, corruptGame.player_o_id, corruptGame.state,
        corruptGame.winner, corruptGame.moves.map Move.move_index⟩ :=
  ⟨by decide, rehydrate_returns_stored corruptGame (by decide)⟩

end TicTacToe
